import Mathlib

/-!
Shallow embedding of the `cync` replication engine (`src/cync/handler.py`,
class `ScpGitEventHandler`) together with theorems settling the spec's
claims about it.

The Python code works on `str` values and `pathlib.Path` objects, so the
embedding starts with faithful models of the string and path primitives the
handler uses: `str.replace` (all non-overlapping occurrences, left to
right), `str.split(sep, 1)`, `in` (substring test), `str.endswith`,
`str.startswith`, and the `PurePosixPath` constructor / `/` join / `str()`
rendering / `.parent` / `.parents` operations.  Lean `String` in this
toolchain is a structure holding a `List Char`, which the definitions below
recurse on structurally so that every definition evaluates by kernel
reduction.
-/

/-- Decidable boolean test that `p` is a prefix of `l` (character lists). -/
def listPre : List Char → List Char → Bool
  | [], _ => true
  | _ :: _, [] => false
  | a :: as, b :: bs => if a = b then listPre as bs else false

/-- Python `sub in s`: substring occurrence test on character lists. -/
def subOcc (sub : List Char) : List Char → Bool
  | [] => sub.isEmpty
  | c :: cs => listPre sub (c :: cs) || subOcc sub cs

/-- Python `sub in s` on strings. -/
def strContains (s sub : String) : Bool :=
  subOcc sub.data s.data

/-- Python `s.startswith(p)`. -/
def startsWithL (s p : String) : Bool :=
  listPre p.data s.data

/-- Python `s.endswith(p)` (single suffix). -/
def endsWithL (s p : String) : Bool :=
  listPre p.data.reverse s.data.reverse

/-- Helper for `splitFirst`: scan for the first occurrence of `sep`,
accumulating the (reversed) characters seen so far. -/
def splitFirstAux (sep : Char) (acc : List Char) : List Char → List Char × List Char
  | [] => (acc.reverse, [])
  | c :: cs => if c = sep then (acc.reverse, cs) else splitFirstAux sep (c :: acc) cs

/-- Python `s.split(sep, 1)` for a separator known to occur: the part before
the first `sep` and the part after it.  When `sep` does not occur the second
component is `""` (callers guard with `strContains`). -/
def splitFirst (s : String) (sep : Char) : String × String :=
  let p := splitFirstAux sep [] s.data
  (⟨p.1⟩, ⟨p.2⟩)

/-- Fuel-indexed worker for Python `s.replace(old, "")`: at each position,
if `old` matches, skip it and continue scanning after the match (Python
replaces all non-overlapping occurrences left to right); otherwise keep the
character.  The fuel is the length of the scanned list, so the first match
arm may drop `old.length - 1` further characters from the tail. -/
def removeAllAux (old : List Char) : Nat → List Char → List Char
  | _, [] => []
  | 0, l => l
  | n + 1, c :: cs =>
      if listPre old (c :: cs) then removeAllAux old n (List.drop (old.length - 1) cs)
      else c :: removeAllAux old n cs

/-- Python `s.replace(old, "")`.  For `old = ""` Python's result with an
empty replacement string is `s` itself, which the guard returns directly. -/
def pyRemoveAll (s old : String) : String :=
  if old = "" then s else ⟨removeAllAux old.data s.data.length s.data⟩

/-- The spec's "relativization of `P` against `W`": strip the watch-root
prefix `W` from `P` (the spec only applies it to paths under `W`). -/
def relativizeSpec (p w : String) : String :=
  if startsWithL p w then ⟨List.drop w.data.length p.data⟩ else p

/-- Split a character list on `'/'` into components (empty components kept,
filtered later, mirroring `PurePosixPath` construction). -/
def splitSlashAux (acc : List Char) : List Char → List (List Char)
  | [] => [acc.reverse]
  | c :: cs => if c = '/' then acc.reverse :: splitSlashAux [] cs else splitSlashAux (c :: acc) cs

/-- The path components `PurePosixPath` keeps: split on `'/'`, drop empty
components and `"."` components (`".."` is kept, as in pathlib). -/
def normComponents (s : String) : List String :=
  ((splitSlashAux [] s.data).map (fun l => (⟨l⟩ : String))).filter
    (fun c => decide (c ≠ "" ∧ c ≠ "."))

/-- The root marker of a POSIX pathlib path: `"//"` for exactly two leading
slashes (a pathlib special case), `"/"` for absolute, `""` for relative. -/
def rootMark (s : String) : String :=
  if startsWithL s "//" && !startsWithL s "///" then "//"
  else if startsWithL s "/" then "/" else ""

/-- Join components with `'/'`. -/
def joinSlash : List String → String
  | [] => ""
  | [c] => c
  | c :: rest => c ++ "/" ++ joinSlash rest

/-- Rendering `str()` of a pathlib path given as root marker plus components: the
empty relative path renders as `"."`, the empty absolute path as its root. -/
def renderPath (root : String) (cs : List String) : String :=
  match cs with
  | [] => if root = "" then "." else root
  | _ :: _ => root ++ joinSlash cs

/-- Model of `str(PurePosixPath(s))`: normalized rendering of a path string. -/
def pathStr (s : String) : String :=
  renderPath (rootMark s) (normComponents s)

/-- Model of `str(PurePosixPath(a) / b)`: pathlib join — an absolute right operand
replaces the left one, otherwise the operands are concatenated with a
separator and normalized. -/
def pyJoin (a b : String) : String :=
  if startsWithL b "/" then pathStr b else pathStr (a ++ "/" ++ b)

/-- Model of `str(PurePosixPath(p).parent)`: drop the last component. -/
def pyParentStr (p : String) : String :=
  renderPath (rootMark p) (normComponents p).dropLast

/-- Renderings of the proper ancestors of a path whose REVERSED component
list is given: dropping the pathlib parent corresponds to dropping the head
of the reversed list. -/
def parentRendersRev (root : String) : List String → List String
  | [] => []
  | _ :: rest => renderPath root rest.reverse :: parentRendersRev root rest

/-- Model of `[str(q) for q in PurePosixPath(p).parents]`: every proper ancestor of
`p`, nearest first, ending with the root marker (`"."` or `"/"`). -/
def pyParents (p : String) : List String :=
  parentRendersRev (rootMark p) (normComponents p).reverse

/-- Python `str(p).replace(".", "").replace("/", "")`, the loop guard of
`_create_parent_dir_if_necessary`: remove every dot and slash character. -/
def stripDotSlash (s : String) : String :=
  ⟨s.data.filter (fun c => decide (c ≠ '.' ∧ c ≠ '/'))⟩

/-!
Data model of the engine.  Remote side effects are modelled as a trace of
issued operations: `exec_command` on a host's SSH client, `SCPClient.put`,
and the local `repo.remote().push(force=True)` of `reset_targets`.  The
connection pool (`_ssh_clients` / `_scp_clients`) only caches transport
handles and never affects which operations are issued, so it is not part of
the state.  Python exceptions (the `ValueError` of an unpacked
`target.split(":", 1)` on a separator-free target, a failed push's
`raise_if_error`, a failed `assert`) are modelled by a `raised` flag on
results: operations already issued before the exception stay in the trace.
-/

/-- One observable remote side effect of the handler. -/
inductive RemoteOp where
  | execCmd (domain : String) (command : String)
  | scpPut (domain : String) (localSrc : String) (targetPath : String)
  | gitPush
deriving DecidableEq, Repr

/-- Operations addressed to a target (everything except the local push). -/
def isTargetOp : RemoteOp → Bool
  | RemoteOp.gitPush => false
  | _ => true

/-- Upload operations (`SCPClient.put`). -/
def isPutOp : RemoteOp → Bool
  | RemoteOp.scpPut _ _ _ => true
  | _ => false

/-- Kinds of watchdog filesystem events. -/
inductive EventKind where
  | created
  | modified
  | deleted
  | moved
deriving DecidableEq, Repr

/-- A watchdog event envelope: kind, source path, destination path (moves
only, otherwise `""`), and the directory flag. -/
structure Event where
  kind : EventKind
  src_path : String
  dest_path : String
  is_directory : Bool
deriving DecidableEq, Repr

/-- Event `FileCreatedEvent(p)` (watchdog file events carry `is_directory = False`). -/
def mkFileCreated (p : String) : Event :=
  ⟨EventKind.created, p, "", false⟩

/-- Event `FileModifiedEvent(p)`. -/
def mkFileModified (p : String) : Event :=
  ⟨EventKind.modified, p, "", false⟩

/-- Event `FileDeletedEvent(p)`. -/
def mkFileDeleted (p : String) : Event :=
  ⟨EventKind.deleted, p, "", false⟩

/-- Event `FileMovedEvent(src, dest)`. -/
def mkFileMoved (src dest : String) : Event :=
  ⟨EventKind.moved, src, dest, false⟩

/-- Field `self._dirs_exists_on_targets`: a `defaultdict(set)` from host to the
set of remote directory paths believed to exist, as an association list. -/
abbrev DirCache := List (String × List String)

/-- Lookup in the per-host directory cache; a missing host yields the empty
set (`defaultdict` semantics). -/
def cacheLookup (dirs : DirCache) (domain : String) : List String :=
  match dirs with
  | [] => []
  | (d, ps) :: rest => if d = domain then ps else cacheLookup rest domain

/-- Update `self._dirs_exists_on_targets[domain].add(p)`. -/
def cacheAdd (dirs : DirCache) (domain : String) (p : String) : DirCache :=
  match dirs with
  | [] => [(domain, [p])]
  | (d, ps) :: rest =>
      if d = domain then (d, if p ∈ ps then ps else p :: ps) :: rest
      else (d, ps) :: cacheAdd rest domain p

/-- The mutable state of a `ScpGitEventHandler` instance that influences
behaviour: constructor arguments (`host_directory`, `targets`, the parsed
extension allow-list) and the fields mutated at runtime
(`_dirs_exists_on_targets`, `_current_commit`, `_current_branch`,
`_ignore_everything`). -/
structure EngineState where
  host_directory : String
  targets : List String
  extensions : List String
  dirs : DirCache
  current_commit : String
  current_branch : String
  ignore_everything : Bool
deriving DecidableEq, Repr

/-- Result of running a handler entry point: the trace of issued remote
operations, the state afterwards, and whether a Python exception escaped. -/
structure StepResult where
  ops : List RemoteOp
  st : EngineState
  raised : Bool
deriving DecidableEq, Repr

/-- The `user_and_domain` split shared by every parse site:
`user, domain = user_and_domain.split("@", 1)` when `"@"` occurs, else
`user = None`. -/
def parseUserAt (uad : String) : Option String × String :=
  if strContains uad "@" then
    let p := splitFirst uad '@'
    (some p.1, p.2)
  else (none, uad)

/-- The descriptor parse used by `_ssh_cmd`, `ssh_mkdir` and `_scp_file`:
a separator-free descriptor falls back to `"titan@localhost"` as
`user_and_domain` and the whole descriptor as the remote root. -/
def parseTargetLoose (t : String) : Option String × String × String :=
  let p := if strContains t ":" then splitFirst t ':' else ("titan@localhost", t)
  let ud := parseUserAt p.1
  (ud.1, ud.2, p.2)

/-- The descriptor parse of `_ssh_rm`, which unpacks `target.split(":", 1)`
unconditionally: with no `':'` the split yields one element and the
unpacking raises `ValueError`, modelled as `none`. -/
def parseTargetStrict (t : String) : Option (Option String × String × String) :=
  if strContains t ":" then
    let p := splitFirst t ':'
    let ud := parseUserAt p.1
    some (ud.1, ud.2, p.2)
  else none

/-- The two path-mapping lines repeated verbatim in `_scp_file`, `_ssh_rm`
and `ssh_mkdir`:
`relative_src_path = str(event.src_path).replace(self.host_directory, "")`
followed by `target_path = str(Path(host_parent_dir) / relative_src_path)`. -/
def mappedTargetPath (host_directory host_parent_dir src_path : String) : String :=
  pyJoin host_parent_dir (pyRemoveAll src_path host_directory)

/-- Modelled from the spec's words for comparison with `mappedTargetPath`:
"relativize the local path against the watch root, join onto each target's
remote root" (spec §4.5, property P2). -/
def specMappedRemotePath (host_directory host_parent_dir src_path : String) : String :=
  pyJoin host_parent_dir (relativizeSpec src_path host_directory)

/-- Method `_ssh_cmd`: iterate over the targets; note that the Python loop rebinds
`command = f"cd {host_parent_dir} && {command}"`, so each later iteration
receives the previous iteration's prefixed command.  A target with a user
gets the command once wrapped under `sudo su` and once plain. -/
def sshCmdTargets : List String → String → List RemoteOp
  | [], _ => []
  | t :: rest, command =>
      let p := parseTargetLoose t
      let command2 := "cd " ++ p.2.2 ++ " && " ++ command
      (match p.1 with
        | some u => [RemoteOp.execCmd p.2.1 ("sudo su " ++ u ++ " bash -c \"" ++ command2 ++ "\"")]
        | none => []) ++
      [RemoteOp.execCmd p.2.1 command2] ++ sshCmdTargets rest command2

/-- The per-target body of `_ssh_rm` once the descriptor parsed. -/
def rmCmdOps (host_directory flag src : String)
    (user : Option String) (domain host_parent_dir : String) : List RemoteOp :=
  let target_path := mappedTargetPath host_directory host_parent_dir src
  let command := "rm -" ++ flag ++ "f " ++ target_path
  (match user with
    | some u => [RemoteOp.execCmd domain ("sudo su " ++ u ++ " bash -c \"" ++ command ++ "\"")]
    | none => []) ++
  [RemoteOp.execCmd domain command]

/-- Method `_ssh_rm`'s loop over targets: the strict parse raises on a
separator-free target, keeping the operations already issued. -/
def sshRmTargets (host_directory flag src : String) : List String → List RemoteOp × Bool
  | [] => ([], false)
  | t :: rest =>
      match parseTargetStrict t with
      | none => ([], true)
      | some p =>
          let ops := rmCmdOps host_directory flag src p.1 p.2.1 p.2.2
          let r := sshRmTargets host_directory flag src rest
          (ops ++ r.1, r.2)

/-- Method `ssh_mkdir`'s loop over targets (loose parse, `mkdir -p` at the mapped
path, duplicated under `sudo su` when a user is present). -/
def sshMkdirTargets (host_directory src_path : String) : List String → List RemoteOp
  | [] => []
  | t :: rest =>
      let p := parseTargetLoose t
      let target_path := mappedTargetPath host_directory p.2.2 src_path
      let command := "mkdir -p " ++ target_path
      (match p.1 with
        | some u => [RemoteOp.execCmd p.2.1 ("sudo su " ++ u ++ " bash -c \"" ++ command ++ "\"")]
        | none => []) ++
      [RemoteOp.execCmd p.2.1 command] ++ sshMkdirTargets host_directory src_path rest

/-- Method `ssh_mkdir` with a string argument (the form `_create_parent_dir_if_necessary`
uses): fans out over every configured target. -/
def sshMkdirOps (st : EngineState) (src_path : String) : List RemoteOp :=
  sshMkdirTargets st.host_directory src_path st.targets

/-- The marking loop of `_create_parent_dir_if_necessary`:
`while str(relative).replace(".", "").replace("/", ""):` add
`str(base / relative)` to the host's cache and step to `relative.parent`.
The path is carried as its root marker plus REVERSED component list, so the
pathlib `parent` step is the structural tail. -/
def markAncestorsRev (domain base root : String) : List String → DirCache → DirCache
  | [], dirs => dirs
  | c :: rest, dirs =>
      let cur := renderPath root ((c :: rest).reverse)
      if stripDotSlash cur = "" then dirs
      else markAncestorsRev domain base root rest (cacheAdd dirs domain (pyJoin base cur))

/-- Method `_create_parent_dir_if_necessary(domain, base, relative)`: no-op when
`str(base / relative)` is already cached for the host; otherwise issue
`ssh_mkdir(str(relative))` (which fans out over every target) and mark
`relative` and each ancestor as present for this host. -/
def createParentDirIfNecessary (st : EngineState) (domain base rel : String) :
    List RemoteOp × EngineState :=
  let target_path := pyJoin base rel
  if target_path ∈ cacheLookup st.dirs domain then ([], st)
  else
    let ops := sshMkdirOps st (pathStr rel)
    let dirs2 := markAncestorsRev domain base (rootMark rel) (normComponents rel).reverse st.dirs
    (ops, { st with dirs := dirs2 })

/-- Method `_scp_file`'s loop over targets, threading the directory cache: loose
parse, parent-directory creation if necessary, a `chmod g+w` under `sudo su`
for a target with a user, the upload itself, and a `chmod +x` follow-up when
the mapped path ends in `".sh"`. -/
def scpFileTargets (ev : Event) : List String → EngineState → List RemoteOp × EngineState
  | [], st => ([], st)
  | t :: rest, st =>
      let p := parseTargetLoose t
      let relative_src_path := pyRemoveAll ev.src_path st.host_directory
      let target_path := mappedTargetPath st.host_directory p.2.2 ev.src_path
      let mk := createParentDirIfNecessary st p.2.1 p.2.2 (pyParentStr relative_src_path)
      let chmodW := match p.1 with
        | some u =>
            [RemoteOp.execCmd p.2.1 ("sudo su " ++ u ++ " bash -c \"chmod g+w " ++ target_path ++ "\"")]
        | none => []
      let chmodX :=
        if endsWithL target_path ".sh" then [RemoteOp.execCmd p.2.1 ("chmod +x " ++ target_path)]
        else []
      let r := scpFileTargets ev rest mk.2
      (mk.1 ++ chmodW ++ [RemoteOp.scpPut p.2.1 ev.src_path target_path] ++ chmodX ++ r.1, r.2)

/-- Method `_scp_file(event)`: the leading `assert not event.is_directory` raises
on a directory event; otherwise fan the upload out over every target. -/
def scpFile (st : EngineState) (ev : Event) : StepResult :=
  if ev.is_directory then ⟨[], st, true⟩
  else
    let r := scpFileTargets ev st.targets st
    ⟨r.1, r.2, false⟩

/-- Method `_is_bad_path(event)`: the source path must end in one of the allowed
extensions (Python `endswith` on the parsed tuple — false for an empty
tuple) and must avoid the fixed blacklist substrings. -/
def isBadPath (st : EngineState) (src_path : String) : Bool :=
  let is_good_path := st.extensions.any (fun e => endsWithL src_path e)
  !is_good_path ||
    (strContains src_path ".pyc" || strContains src_path ".env/" ||
     strContains src_path "__pycache__" || strContains src_path ".egg")

/-- Method `on_created(event)`: skip bad paths and everything while
`_ignore_everything` is set (`_is_git_path` only calls the no-op
`_on_git_event` and does not return, so it never changes the control flow);
directories go to `ssh_mkdir`, files to `_scp_file`. -/
def onCreated (st : EngineState) (ev : Event) : StepResult :=
  if isBadPath st ev.src_path || st.ignore_everything then ⟨[], st, false⟩
  else if ev.is_directory then ⟨sshMkdirOps st ev.src_path, st, false⟩
  else scpFile st ev

/-- Method `on_modified(event)`: like `on_created` but directory events are only
logged and files go to `_scp_file`. -/
def onModified (st : EngineState) (ev : Event) : StepResult :=
  if isBadPath st ev.src_path || st.ignore_everything then ⟨[], st, false⟩
  else if !ev.is_directory then scpFile st ev
  else ⟨[], st, false⟩

/-- Method `on_deleted(event)`: skip bad paths / suppression, then `_ssh_rm` with
the `-r` flag for directories. -/
def onDeleted (st : EngineState) (ev : Event) : StepResult :=
  if isBadPath st ev.src_path || st.ignore_everything then ⟨[], st, false⟩
  else
    let flag := if ev.is_directory then "r" else ""
    let r := sshRmTargets st.host_directory flag ev.src_path st.targets
    ⟨r.1, st, r.2⟩

/-- Method `on_moved(event)`: after the bad-path / suppression check on the SOURCE
path only, dispatch `on_deleted(FileDeletedEvent(src))` then
`on_created(FileCreatedEvent(dest))`; an exception in the delete half
propagates and the create half never runs. -/
def onMoved (st : EngineState) (ev : Event) : StepResult :=
  if isBadPath st ev.src_path || st.ignore_everything then ⟨[], st, false⟩
  else
    let r1 := onDeleted st (mkFileDeleted ev.src_path)
    if r1.raised then ⟨r1.ops, r1.st, true⟩
    else
      let r2 := onCreated r1.st (mkFileCreated ev.dest_path)
      ⟨r1.ops ++ r2.ops, r2.st, r2.raised⟩

/-- The composite chained command `reset_targets` hands to `_ssh_cmd`. -/
def gitChain (branch : String) : String :=
  "git fetch --all && git stash && git checkout " ++ branch ++
    " && git reset --hard origin/" ++ branch ++ " && git clean -f"

/-- The untracked-file upload loop of `reset_targets`:
`self._scp_file(FileCreatedEvent(untracked_file))` for each untracked file,
threading the directory cache. -/
def uploadUntracked : List String → EngineState → List RemoteOp × EngineState
  | [], st => ([], st)
  | f :: rest, st =>
      let r := scpFile st (mkFileCreated f)
      let r2 := uploadUntracked rest r.st
      (r.ops ++ r2.1, r2.2)

/-- Method `reset_targets()`: when the repository's active branch differs from
`_current_branch`, raise the suppression flag, force-push (a failure raises
out of the method, leaving the flag raised and `_current_branch`
unchanged), send the composite git chain through `_ssh_cmd`, upload every
untracked file, then lower the flag and record the new branch.  The
environment is a parameter: the active branch, whether the push succeeds,
and the repository's untracked files. -/
def reset_targets (st : EngineState) (active_branch : String) (pushOk : Bool)
    (untracked : List String) : StepResult :=
  if active_branch ≠ st.current_branch then
    let st1 := { st with ignore_everything := true }
    if pushOk then
      let cmdOps := sshCmdTargets st1.targets (gitChain active_branch)
      let up := uploadUntracked untracked st1
      ⟨RemoteOp.gitPush :: (cmdOps ++ up.1),
       { up.2 with ignore_everything := false, current_branch := active_branch }, false⟩
    else ⟨[RemoteOp.gitPush], st1, true⟩
  else ⟨[], st, false⟩

/-!
Helper lemmas about the string model.
-/

/-- Appending with `String.append` concatenates the character lists. -/
theorem strDataAppend (a b : String) : (a ++ b).data = a.data ++ b.data := rfl

/-- A nonempty string has a nonempty character list. -/
theorem strNeEmptyData (s : String) (h : s ≠ "") : s.data ≠ [] := by
  intro hd
  apply h
  have he : s = ⟨s.data⟩ := rfl
  rw [he, hd]

/-- A list is a `listPre`-prefix of itself followed by anything. -/
theorem listPre_append_self (a b : List Char) : listPre a (a ++ b) = true := by
  induction a with
  | nil => simp [listPre]
  | cons c cs ih => simp [listPre, ih]

/-- If `old` occurs nowhere in `l`, removal leaves `l` unchanged. -/
theorem removeAllAux_no_occ (old : List Char) :
    ∀ (n : Nat) (l : List Char), subOcc old l = false → removeAllAux old n l = l := by
  intro n
  induction n with
  | zero =>
      intro l _
      cases l with
      | nil => rfl
      | cons c cs => rfl
  | succ m ih =>
      intro l hl
      cases l with
      | nil => rfl
      | cons c cs =>
          simp only [subOcc, Bool.or_eq_false_iff] at hl
          simp [removeAllAux, hl.1, ih cs hl.2]

/-- Removing every occurrence of `old` from `old ++ rest`, when `old` does
not occur in `rest`, yields `rest`. -/
theorem removeAllAux_strip (old rest : List Char) (hne : old ≠ [])
    (hno : subOcc old rest = false) :
    ∀ n, 0 < n → removeAllAux old n (old ++ rest) = rest := by
  intro n hn
  cases old with
  | nil => exact absurd rfl hne
  | cons o os =>
      cases n with
      | zero => exact absurd hn (by simp)
      | succ m =>
          have hpre : listPre (o :: os) (o :: (os ++ rest)) = true := by
            have h0 := listPre_append_self (o :: os) rest
            simpa using h0
          have hdrop : List.drop ((o :: os).length - 1) (os ++ rest) = rest := by
            simp [List.drop_left]
          calc removeAllAux (o :: os) (m + 1) ((o :: os) ++ rest)
              = removeAllAux (o :: os) m (List.drop ((o :: os).length - 1) (os ++ rest)) := by
                simp [removeAllAux, hpre]
            _ = rest := by rw [hdrop]; exact removeAllAux_no_occ _ m rest hno

/-- Computing `(W ++ rest).replace(W, "") = rest` holds when `W` is nonempty and does not
occur in `rest`. -/
theorem pyRemoveAll_strip (W rest : String) (hW : W ≠ "")
    (hno : strContains rest W = false) :
    pyRemoveAll (W ++ rest) W = rest := by
  have hdata : (W ++ rest).data = W.data ++ rest.data := strDataAppend W rest
  have hlen : 0 < (W ++ rest).data.length := by
    rw [hdata]
    have := strNeEmptyData W hW
    cases hd : W.data with
    | nil => exact absurd hd this
    | cons c cs => simp [hd]
  unfold pyRemoveAll
  rw [if_neg hW]
  have : removeAllAux W.data (W ++ rest).data.length (W ++ rest).data = rest.data := by
    rw [hdata]
    rw [hdata] at hlen
    exact removeAllAux_strip W.data rest.data (strNeEmptyData W hW) hno _ hlen
  rw [this]

/-- The spec's relativization strips an actual prefix exactly. -/
theorem relativizeSpec_append (W rest : String) :
    relativizeSpec (W ++ rest) W = rest := by
  unfold relativizeSpec
  have hsw : startsWithL (W ++ rest) W = true := by
    unfold startsWithL
    rw [strDataAppend]
    exact listPre_append_self _ _
  rw [if_pos hsw]
  have : List.drop W.data.length (W ++ rest).data = rest.data := by
    rw [strDataAppend]
    exact List.drop_left _ _
  rw [this]

/-!
Claim theorems.
-/

/-- C2 (amended): for a local path `W ++ rest` under the watch root `W`,
the remote path the handler computes (shared by `_scp_file`, `_ssh_rm` and
`ssh_mkdir` through `mappedTargetPath`) equals the remote root joined with
the relativization of the path against `W`, PROVIDED the watch root occurs
exactly once in the path, i.e. `rest` does not contain `W` again.  The
handler strips the watch root with `str.replace`, which removes every
occurrence, so the unamended claim fails when `W` reoccurs (see the
counterexample). -/
theorem mapped_path_refines_spec (W R rest : String) (hW : W ≠ "")
    (honce : strContains rest W = false) :
    mappedTargetPath W R (W ++ rest) = specMappedRemotePath W R (W ++ rest) := by
  unfold mappedTargetPath specMappedRemotePath
  rw [pyRemoveAll_strip W rest hW honce, relativizeSpec_append]

/-- Witness for C2: watch root `/w/`, remote root `/r`, path `/w/src/a.py`
maps to `/r/src/a.py` on both the code's and the spec's reading. -/
theorem mapped_path_refines_spec_w :
    ("/w/" : String) ≠ "" ∧ strContains "src/a.py" "/w/" = false ∧
    mappedTargetPath "/w/" "/r" ("/w/" ++ "src/a.py") =
      specMappedRemotePath "/w/" "/r" ("/w/" ++ "src/a.py") :=
  ⟨by decide, by decide, mapped_path_refines_spec "/w/" "/r" "src/a.py" (by decide) (by decide)⟩

/-- Counterexample for C2 as stated: with watch root `/w/` and local path
`/w/a/w/b.py` (which is under `/w/`), `str.replace` also deletes the second
occurrence of `/w/`, so the computed remote path is `/r/ab.py` while `R`
joined with the relativization is `/r/a/w/b.py`. -/
theorem mapped_path_refines_spec_cex :
    mappedTargetPath "/w/" "/r" "/w/a/w/b.py" = "/r/ab.py" ∧
    specMappedRemotePath "/w/" "/r" "/w/a/w/b.py" = "/r/a/w/b.py" ∧
    mappedTargetPath "/w/" "/r" "/w/a/w/b.py" ≠ specMappedRemotePath "/w/" "/r" "/w/a/w/b.py" := by
  decide

/-- C8 (confirmed): while `_ignore_everything` is set, every handler entry
point (`on_created`, `on_modified`, `on_deleted`, `on_moved`) returns
without issuing any remote operation, without changing the state and
without raising. -/
theorem suppression_rejects_all (st : EngineState) (ev : Event)
    (h : st.ignore_everything = true) :
    onCreated st ev = ⟨[], st, false⟩ ∧ onModified st ev = ⟨[], st, false⟩ ∧
    onDeleted st ev = ⟨[], st, false⟩ ∧ onMoved st ev = ⟨[], st, false⟩ := by
  refine ⟨?_, ?_, ?_, ?_⟩ <;> simp [onCreated, onModified, onDeleted, onMoved, h]

/-- Witness for C8 at a concrete suppressed state and event. -/
theorem suppression_rejects_all_w :
    onCreated ⟨"/w/", ["h:/r"], ["py"], [], "", "main", true⟩ (mkFileCreated "/w/a.py") =
      ⟨[], ⟨"/w/", ["h:/r"], ["py"], [], "", "main", true⟩, false⟩ ∧
    onModified ⟨"/w/", ["h:/r"], ["py"], [], "", "main", true⟩ (mkFileCreated "/w/a.py") =
      ⟨[], ⟨"/w/", ["h:/r"], ["py"], [], "", "main", true⟩, false⟩ ∧
    onDeleted ⟨"/w/", ["h:/r"], ["py"], [], "", "main", true⟩ (mkFileCreated "/w/a.py") =
      ⟨[], ⟨"/w/", ["h:/r"], ["py"], [], "", "main", true⟩, false⟩ ∧
    onMoved ⟨"/w/", ["h:/r"], ["py"], [], "", "main", true⟩ (mkFileCreated "/w/a.py") =
      ⟨[], ⟨"/w/", ["h:/r"], ["py"], [], "", "main", true⟩, false⟩ :=
  suppression_rejects_all ⟨"/w/", ["h:/r"], ["py"], [], "", "main", true⟩ (mkFileCreated "/w/a.py") rfl

/-- C7 (amended): when the first reconciliation completes without aborting
(its push succeeds, or it was already a no-op), a second reconciliation
with the same active branch is a full no-op: no push, no remote command,
no upload, state unchanged.  Unamended the claim fails when the first
invocation aborts on a push failure, because `_current_branch` is then not
updated and the second invocation pushes again (see the counterexample). -/
theorem reconcile_second_noop (st : EngineState) (b : String) (u1 u2 : List String) (p2 : Bool) :
    reset_targets (reset_targets st b true u1).st b p2 u2 =
      ⟨[], (reset_targets st b true u1).st, false⟩ := by
  have hbr : (reset_targets st b true u1).st.current_branch = b := by
    by_cases h : b = st.current_branch
    · simp [reset_targets, h]
    · simp [reset_targets, h]
  have key : ∀ s : EngineState, s.current_branch = b → reset_targets s b p2 u2 = ⟨[], s, false⟩ := by
    intro s hs
    simp [reset_targets, hs]
  exact key _ hbr

/-- Counterexample for C7 as stated: after reconciliation aborts on a push
failure, invoking it again with the same active branch is NOT a no-op — it
issues operations (it retries the push and, succeeding, commands the
targets). -/
theorem reconcile_second_noop_cex :
    (reset_targets (reset_targets ⟨"/w/", ["h:/r"], ["py"], [], "", "dev", false⟩ "main" false []).st
        "main" true []).ops ≠ [] := by
  decide

/-- C1 (amended): if the force-push fails (for any engine state whose
active branch differs from the last reconciled one), no target receives any
remote command — the trace holds only the attempted push — and
reconciliation reports failure, but the suppression flag ends RAISED, not
lowered: `_ignore_everything = True` is set before the push and the
exception skips the later `_ignore_everything = False` line. -/
theorem reconcile_push_failure (st : EngineState) (b : String) (u : List String)
    (hb : b ≠ st.current_branch) :
    reset_targets st b false u =
      ⟨[RemoteOp.gitPush], { st with ignore_everything := true }, true⟩ ∧
    (reset_targets st b false u).ops.filter (fun o => isTargetOp o) = [] := by
  refine ⟨?_, ?_⟩ <;> simp [reset_targets, hb, isTargetOp]

/-- Witness for C1 at a concrete state with `dev ≠ main`. -/
theorem reconcile_push_failure_w :
    ("main" : String) ≠ "dev" ∧
    (reset_targets ⟨"/w/", ["h:/r"], ["py"], [], "", "dev", false⟩ "main" false [] =
      ⟨[RemoteOp.gitPush], ⟨"/w/", ["h:/r"], ["py"], [], "", "dev", true⟩, true⟩ ∧
     (reset_targets ⟨"/w/", ["h:/r"], ["py"], [], "", "dev", false⟩ "main" false []).ops.filter
        (fun o => isTargetOp o) = []) :=
  ⟨by decide,
   reconcile_push_failure ⟨"/w/", ["h:/r"], ["py"], [], "", "dev", false⟩ "main" [] (by decide)⟩

/-- Counterexample for C1 as stated: on push failure the suppression flag
ends raised (the claim asserts it ends lowered). -/
theorem reconcile_push_failure_cex :
    (reset_targets ⟨"/w/", ["h:/r"], ["py"], [], "", "dev", false⟩ "main" false
        []).st.ignore_everything = true ∧
    (reset_targets ⟨"/w/", ["h:/r"], ["py"], [], "", "dev", false⟩ "main" false []).raised = true := by
  decide

/-- C9 (amended): no parse-time validation of target descriptors exists.
`parseTargetLoose` is total — it never fails, no ConfigurationError is ever
raised — and every descriptor, malformed ones (empty host or empty root)
included, still gets a remote command attempted for it by `_ssh_cmd`. -/
theorem malformed_descriptor_not_rejected (t command : String) :
    sshCmdTargets [t] command ≠ [] := by
  cases h : (parseTargetLoose t).1 <;>
    simp [sshCmdTargets, h]

/-- Counterexample for C9 as stated: the malformed descriptor `":'` (empty
host and empty root) parses without any error to the triple
`(none, "", "")`, and a remote command is then attempted on the empty
host — nothing fails at parse time. -/
theorem malformed_descriptor_not_rejected_cex :
    parseTargetLoose ":" = (none, "", "") ∧
    sshCmdTargets [":"] "c" = [RemoteOp.execCmd "" "cd  && c"] := by
  decide

/-- C3 (amended): a target descriptor with no `':'` parses to host
`localhost` (the localhost-equivalent default) with the WHOLE descriptor as
remote root, but the fall-back `user_and_domain` literal is
`"titan@localhost"`, so the principal is `titan` — not the default `None` —
and consequently every command for such a target IS additionally issued
once wrapped under `sudo su titan` privilege elevation. -/
theorem no_separator_default_parse (t : String) (h : strContains t ":" = false) :
    parseTargetLoose t = (some "titan", "localhost", t) ∧
    ∀ command, sshCmdTargets [t] command =
      [RemoteOp.execCmd "localhost" ("sudo su titan bash -c \"" ++ ("cd " ++ t ++ " && " ++ command) ++ "\""),
       RemoteOp.execCmd "localhost" ("cd " ++ t ++ " && " ++ command)] := by
  have hp : parseTargetLoose t = (some "titan", "localhost", t) := by
    simp [parseTargetLoose, h]
    constructor
    · decide
    · decide
  refine ⟨hp, ?_⟩
  intro command
  simp [sshCmdTargets, hp]

/-- Witness for C3 at the descriptor `/data`. -/
theorem no_separator_default_parse_w :
    strContains "/data" ":" = false ∧
    (parseTargetLoose "/data" = (some "titan", "localhost", "/data") ∧
     ∀ command, sshCmdTargets ["/data"] command =
       [RemoteOp.execCmd "localhost" ("sudo su titan bash -c \"" ++ ("cd " ++ "/data" ++ " && " ++ command) ++ "\""),
        RemoteOp.execCmd "localhost" ("cd " ++ "/data" ++ " && " ++ command)]) :=
  ⟨by decide, no_separator_default_parse "/data" (by decide)⟩

/-- Counterexample for C3 as stated: for the separator-free descriptor
`/data` the parsed principal is `some "titan"`, not the default, and the
issued trace contains a privilege-elevated `sudo su titan` command, which
the claim asserts never happens. -/
theorem no_separator_default_parse_cex :
    (parseTargetLoose "/data").1 = some "titan" ∧
    sshCmdTargets ["/data"] "ls" =
      [RemoteOp.execCmd "localhost" "sudo su titan bash -c \"cd /data && ls\"",
       RemoteOp.execCmd "localhost" "cd /data && ls"] := by
  decide

/-- C4 (amended): with a SINGLE configured target (host separator present,
default principal), branch reconciliation sends that target exactly one
composite chained command — `cd <root> && git fetch --all && git stash &&
git checkout <b> && git reset --hard origin/<b> && git clean -f` — scoped
to its own remote root.  With several targets the claim as stated fails:
`_ssh_cmd` rebinds `command` inside its loop, so the i-th target's command
carries the accumulated `cd` prefixes of all earlier targets and hence
depends on their remote roots (see the counterexample). -/
theorem reconcile_single_target_chain (st : EngineState) (t b : String)
    (htargets : st.targets = [t])
    (hc : strContains t ":" = true)
    (ha : strContains (splitFirst t ':').1 "@" = false)
    (hb : b ≠ st.current_branch) :
    reset_targets st b true [] =
      ⟨[RemoteOp.gitPush,
        RemoteOp.execCmd (splitFirst t ':').1 ("cd " ++ (splitFirst t ':').2 ++ " && " ++ gitChain b)],
       { st with current_branch := b, ignore_everything := false }, false⟩ := by
  have hp : parseTargetLoose t = (none, (splitFirst t ':').1, (splitFirst t ':').2) := by
    simp [parseTargetLoose, hc, parseUserAt, ha]
  simp [reset_targets, hb, htargets, uploadUntracked, sshCmdTargets, hp]

/-- Witness for C4 at the single target `h:/r`. -/
theorem reconcile_single_target_chain_w :
    (⟨"/w/", ["h:/r"], ["py"], [], "", "dev", false⟩ : EngineState).targets = ["h:/r"] ∧
    strContains "h:/r" ":" = true ∧
    strContains (splitFirst "h:/r" ':').1 "@" = false ∧
    ("main" : String) ≠ "dev" ∧
    reset_targets ⟨"/w/", ["h:/r"], ["py"], [], "", "dev", false⟩ "main" true [] =
      ⟨[RemoteOp.gitPush,
        RemoteOp.execCmd (splitFirst "h:/r" ':').1
          ("cd " ++ (splitFirst "h:/r" ':').2 ++ " && " ++ gitChain "main")],
       ⟨"/w/", ["h:/r"], ["py"], [], "", "main", false⟩, false⟩ :=
  ⟨rfl, by decide, by decide, by decide,
   reconcile_single_target_chain ⟨"/w/", ["h:/r"], ["py"], [], "", "dev", false⟩ "h:/r" "main"
     rfl (by decide) (by decide) (by decide)⟩

/-- Counterexample for C4 as stated: with two targets, changing the FIRST
target's remote root changes the command the SECOND target receives (the
second chain is `cd /b && cd /a && …` versus `cd /b && cd /c && …`), so a
target's command does depend on the other configured targets' roots. -/
theorem reconcile_single_target_chain_cex :
    (sshCmdTargets ["h1:/a", "h2:/b"] (gitChain "main"))[1]? ≠
      (sshCmdTargets ["h1:/c", "h2:/b"] (gitChain "main"))[1]? := by
  decide

/-- Closed form of `_ssh_rm`'s loop when every target has a host separator
and default principal: exactly one `rm` command per target, in target
order, and no exception. -/
theorem sshRmTargets_closed (hd flag src : String) (targets : List String)
    (hc : ∀ t ∈ targets, strContains t ":" = true)
    (ha : ∀ t ∈ targets, strContains (splitFirst t ':').1 "@" = false) :
    sshRmTargets hd flag src targets =
      (targets.map (fun t =>
        RemoteOp.execCmd (splitFirst t ':').1
          ("rm -" ++ flag ++ "f " ++ mappedTargetPath hd (splitFirst t ':').2 src)), false) := by
  induction targets with
  | nil => rfl
  | cons t rest ih =>
      have hct := hc t (by simp)
      have hat := ha t (by simp)
      have hp : parseTargetStrict t = some (none, (splitFirst t ':').1, (splitFirst t ':').2) := by
        simp [parseTargetStrict, hct, parseUserAt, hat]
      have ihr := ih (fun x hx => hc x (by simp [hx])) (fun x hx => ha x (by simp [hx]))
      simp [sshRmTargets, hp, rmCmdOps, ihr]

/-- Closed form of `_scp_file`'s loop when every target has a host
separator and default principal, the mapped parent directory is already in
the presence cache for each target's host, and no mapped path ends in
`".sh"`: exactly one upload per target, in target order, and the state is
unchanged. -/
theorem scpFileTargets_closed (st : EngineState) (ev : Event) (targets : List String)
    (hc : ∀ t ∈ targets, strContains t ":" = true)
    (ha : ∀ t ∈ targets, strContains (splitFirst t ':').1 "@" = false)
    (hhit : ∀ t ∈ targets,
      pyJoin (splitFirst t ':').2 (pyParentStr (pyRemoveAll ev.src_path st.host_directory)) ∈
        cacheLookup st.dirs (splitFirst t ':').1)
    (hsh : ∀ t ∈ targets,
      endsWithL (mappedTargetPath st.host_directory (splitFirst t ':').2 ev.src_path) ".sh" = false) :
    scpFileTargets ev targets st =
      (targets.map (fun t =>
        RemoteOp.scpPut (splitFirst t ':').1 ev.src_path
          (mappedTargetPath st.host_directory (splitFirst t ':').2 ev.src_path)), st) := by
  induction targets with
  | nil => rfl
  | cons t rest ih =>
      have hct := hc t (by simp)
      have hat := ha t (by simp)
      have hhitt := hhit t (by simp)
      have hsht := hsh t (by simp)
      have hp : parseTargetLoose t = (none, (splitFirst t ':').1, (splitFirst t ':').2) := by
        simp [parseTargetLoose, hct, parseUserAt, hat]
      have hcp : createParentDirIfNecessary st (splitFirst t ':').1 (splitFirst t ':').2
          (pyParentStr (pyRemoveAll ev.src_path st.host_directory)) = ([], st) := by
        unfold createParentDirIfNecessary
        rw [if_pos hhitt]
      have ihr := ih (fun x hx => hc x (by simp [hx])) (fun x hx => ha x (by simp [hx]))
        (fun x hx => hhit x (by simp [hx])) (fun x hx => hsh x (by simp [hx]))
      simp [scpFileTargets, hp, hcp, ihr, hsht]

/-- C5 (amended): an accepted move from `A` to `B` whose DESTINATION also
passes the classifier yields, per target (targets with host separator and
default principal, mapped parent directories already cached, mapped
destination not a shell script), exactly one delete of the mapped `A`
followed by exactly one create (upload) of the mapped `B`: the whole delete
block precedes the whole create block.  Unamended the claim fails because
`on_moved` re-dispatches through `on_created(FileCreatedEvent(dest))`,
which re-runs the classifier on `B`: a filtered destination yields the
delete but never the create (see the counterexample). -/
theorem on_moved_delete_then_create (st : EngineState) (src dst : String)
    (hflag : st.ignore_everything = false)
    (hsrc : isBadPath st src = false)
    (hdst : isBadPath st dst = false)
    (hc : ∀ t ∈ st.targets, strContains t ":" = true)
    (ha : ∀ t ∈ st.targets, strContains (splitFirst t ':').1 "@" = false)
    (hhit : ∀ t ∈ st.targets,
      pyJoin (splitFirst t ':').2 (pyParentStr (pyRemoveAll dst st.host_directory)) ∈
        cacheLookup st.dirs (splitFirst t ':').1)
    (hsh : ∀ t ∈ st.targets,
      endsWithL (mappedTargetPath st.host_directory (splitFirst t ':').2 dst) ".sh" = false) :
    onMoved st (mkFileMoved src dst) =
      ⟨st.targets.map (fun t =>
          RemoteOp.execCmd (splitFirst t ':').1
            ("rm -" ++ "" ++ "f " ++ mappedTargetPath st.host_directory (splitFirst t ':').2 src)) ++
        st.targets.map (fun t =>
          RemoteOp.scpPut (splitFirst t ':').1 dst
            (mappedTargetPath st.host_directory (splitFirst t ':').2 dst)),
       st, false⟩ := by
  have hrm := sshRmTargets_closed st.host_directory "" src st.targets hc ha
  have hscp := scpFileTargets_closed st (mkFileCreated dst) st.targets hc ha hhit hsh
  simp [onMoved, onDeleted, onCreated, scpFile, mkFileMoved, mkFileDeleted, mkFileCreated,
    hflag, hsrc, hdst] at *
  simp [hrm, hscp, hflag, hsrc, hdst]

/-- Witness for C5: target `h:/r`, cached root, move `/w/a.py → /w/b.py`
yields exactly `rm -f /r/a.py` then the upload to `/r/b.py`. -/
theorem on_moved_delete_then_create_w :
    (⟨"/w/", ["h:/r"], ["py"], [("h", ["/r"])], "", "main", false⟩ : EngineState).ignore_everything
        = false ∧
    onMoved ⟨"/w/", ["h:/r"], ["py"], [("h", ["/r"])], "", "main", false⟩
        (mkFileMoved "/w/a.py" "/w/b.py") =
      ⟨(["h:/r"] : List String).map (fun t =>
          RemoteOp.execCmd (splitFirst t ':').1
            ("rm -" ++ "" ++ "f " ++ mappedTargetPath "/w/" (splitFirst t ':').2 "/w/a.py")) ++
        (["h:/r"] : List String).map (fun t =>
          RemoteOp.scpPut (splitFirst t ':').1 "/w/b.py"
            (mappedTargetPath "/w/" (splitFirst t ':').2 "/w/b.py")),
       ⟨"/w/", ["h:/r"], ["py"], [("h", ["/r"])], "", "main", false⟩, false⟩ :=
  ⟨rfl,
   on_moved_delete_then_create ⟨"/w/", ["h:/r"], ["py"], [("h", ["/r"])], "", "main", false⟩
     "/w/a.py" "/w/b.py" rfl (by decide) (by decide)
     (by intro t ht; simp at ht; subst ht; decide)
     (by intro t ht; simp at ht; subst ht; decide)
     (by intro t ht; simp at ht; subst ht; decide)
     (by intro t ht; simp at ht; subst ht; decide)⟩

/-- Counterexample for C5 as stated: the accepted move
`/w/a.py → /w/b.pyc` (source accepted, destination hits the blacklist)
issues the delete of the mapped source but NO create of the mapped
destination — the trace contains no upload at all. -/
theorem on_moved_delete_then_create_cex :
    (onMoved ⟨"/w/", ["h:/r"], ["py"], [("h", ["/r"])], "", "main", false⟩
        (mkFileMoved "/w/a.py" "/w/b.pyc")).ops = [RemoteOp.execCmd "h" "rm -f /r/a.py"] ∧
    ((onMoved ⟨"/w/", ["h:/r"], ["py"], [("h", ["/r"])], "", "main", false⟩
        (mkFileMoved "/w/a.py" "/w/b.pyc")).ops.filter (fun o => isPutOp o)) = [] := by
  decide

/-- C10 (amended): for a configured target descriptor with no host
separator `':'`, an accepted deleted event raises an unhandled `ValueError`
before issuing any remote command — `_ssh_rm` unpacks
`target.split(":", 1)` unconditionally — while created and modified events
accept the same descriptor by falling back to the default host.  The claim
as stated also counts MOVED events among the accepting ones, but a move is
decomposed into delete-then-create and its delete half hits the same
error, so a moved event raises too (see the counterexample). -/
theorem deleted_event_raises_without_separator (st : EngineState) (t src dst : String)
    (htargets : st.targets = [t])
    (hc : strContains t ":" = false)
    (hflag : st.ignore_everything = false)
    (hsrc : isBadPath st src = false) :
    onDeleted st (mkFileDeleted src) = ⟨[], st, true⟩ ∧
    (onCreated st (mkFileCreated src)).raised = false ∧
    (onModified st (mkFileModified src)).raised = false ∧
    onMoved st (mkFileMoved src dst) = ⟨[], st, true⟩ := by
  have hp : parseTargetStrict t = none := by
    simp [parseTargetStrict, hc]
  have hdel : onDeleted st (mkFileDeleted src) = ⟨[], st, true⟩ := by
    simp [onDeleted, mkFileDeleted, hsrc, hflag, htargets, sshRmTargets, hp]
  refine ⟨hdel, ?_, ?_, ?_⟩
  · simp [onCreated, mkFileCreated, hsrc, hflag, scpFile]
  · simp [onModified, mkFileModified, hsrc, hflag, scpFile]
  · simp [onMoved, mkFileMoved, hsrc, hflag, hdel]

/-- Witness for C10: target `/r` (no separator): the deleted event raises
with an empty trace while the created and modified events do not raise. -/
theorem deleted_event_raises_without_separator_w :
    (⟨"/w/", ["/r"], ["py"], [], "", "main", false⟩ : EngineState).targets = ["/r"] ∧
    strContains "/r" ":" = false ∧
    (onDeleted ⟨"/w/", ["/r"], ["py"], [], "", "main", false⟩ (mkFileDeleted "/w/a.py") =
        ⟨[], ⟨"/w/", ["/r"], ["py"], [], "", "main", false⟩, true⟩ ∧
      (onCreated ⟨"/w/", ["/r"], ["py"], [], "", "main", false⟩ (mkFileCreated "/w/a.py")).raised
          = false ∧
      (onModified ⟨"/w/", ["/r"], ["py"], [], "", "main", false⟩
          (mkFileModified "/w/a.py")).raised = false ∧
      onMoved ⟨"/w/", ["/r"], ["py"], [], "", "main", false⟩ (mkFileMoved "/w/a.py" "/w/b.py") =
        ⟨[], ⟨"/w/", ["/r"], ["py"], [], "", "main", false⟩, true⟩) :=
  ⟨rfl, by decide,
   deleted_event_raises_without_separator ⟨"/w/", ["/r"], ["py"], [], "", "main", false⟩
     "/r" "/w/a.py" "/w/b.py" rfl (by decide) rfl (by decide)⟩

/-- Counterexample for C10 as stated: the claim counts moved events among
those that "accept the same descriptor by falling back to the default
host", but processing a moved event with the separator-free target `/r`
raises the very same unhandled error (its delete half runs first). -/
theorem deleted_event_raises_without_separator_cex :
    (onMoved ⟨"/w/", ["/r"], ["py"], [], "", "main", false⟩
        (mkFileMoved "/w/a.py" "/w/b.py")).raised = true ∧
    (onCreated ⟨"/w/", ["/r"], ["py"], [], "", "main", false⟩
        (mkFileCreated "/w/a.py")).raised = false := by
  decide

/-- Adding a path to a host's cache makes it a member for that host. -/
theorem cacheAdd_self (dirs : DirCache) (d p : String) :
    p ∈ cacheLookup (cacheAdd dirs d p) d := by
  induction dirs with
  | nil => simp [cacheAdd, cacheLookup]
  | cons e rest ih =>
      by_cases h : e.1 = d
      · by_cases hp : p ∈ e.2 <;> simp [cacheAdd, cacheLookup, h, hp]
      · simp [cacheAdd, cacheLookup, h, ih]

/-- Adding a path never removes existing cache memberships. -/
theorem cacheAdd_mono (dirs : DirCache) (d p d' q : String)
    (h : q ∈ cacheLookup dirs d') : q ∈ cacheLookup (cacheAdd dirs d p) d' := by
  induction dirs with
  | nil => simp [cacheLookup] at h
  | cons e rest ih =>
      by_cases he : e.1 = d
      · by_cases hd : e.1 = d'
        · by_cases hp : p ∈ e.2 <;>
            simp_all [cacheAdd, cacheLookup]
        · simp_all [cacheAdd, cacheLookup]
      · by_cases hd : e.1 = d'
        · simp_all [cacheAdd, cacheLookup]
        · simp_all [cacheAdd, cacheLookup]

/-- The marking loop never removes existing cache memberships. -/
theorem markAncestorsRev_mono (domain base root d' q : String) :
    ∀ (rcs : List String) (dirs : DirCache), q ∈ cacheLookup dirs d' →
      q ∈ cacheLookup (markAncestorsRev domain base root rcs dirs) d' := by
  intro rcs
  induction rcs with
  | nil => intro dirs h; simpa [markAncestorsRev] using h
  | cons c rest ih =>
      intro dirs h
      by_cases hg : stripDotSlash (renderPath root (rest.reverse ++ [c])) = ""
      · simpa [markAncestorsRev, hg] using h
      · simpa [markAncestorsRev, hg] using ih _ (cacheAdd_mono dirs domain _ d' q h)

/-- Characters surviving `stripDotSlash` distribute over append. -/
theorem stripDotSlash_append (a b : String) :
    stripDotSlash (a ++ b) = stripDotSlash a ++ stripDotSlash b := by
  show (⟨(a ++ b).data.filter _⟩ : String) = ⟨_ ++ _⟩
  rw [strDataAppend, List.filter_append]

/-- A string with a nonempty strip stays nonempty as a left append part. -/
theorem strAppend_ne_left (a b : String) (h : a ≠ "") : a ++ b ≠ "" := by
  intro he
  apply strNeEmptyData a h
  have : (a ++ b).data = [] := by rw [he]
  rw [strDataAppend] at this
  exact (List.append_eq_nil.mp this).1


/-- A string whose character list is nonempty is not `""`. -/
theorem strNeOfData (s : String) (h : s.data ≠ []) : s ≠ "" := by
  intro he
  apply h
  rw [he]

/-- Emptiness of `stripDotSlash` is filter emptiness on the character list. -/
theorem stripDotSlash_eq_empty_iff (s : String) :
    stripDotSlash s = "" ↔ s.data.filter (fun c => decide (c ≠ '.' ∧ c ≠ '/')) = [] := by
  unfold stripDotSlash
  constructor
  · intro h
    have := congrArg String.data h
    simpa using this
  · intro h
    rw [h]

/-- The loop guard of `_create_parent_dir_if_necessary` is satisfied by
any nonempty relative path all of whose components contain a character
other than `'.'` and `'/'`. -/
theorem stripDotSlash_render_ne (cs : List String) (hne : cs ≠ [])
    (hn : ∀ c ∈ cs, stripDotSlash c ≠ "") :
    stripDotSlash (renderPath "" cs) ≠ "" := by
  cases cs with
  | nil => exact absurd rfl hne
  | cons c rest =>
      have hc : c.data.filter (fun x => decide (x ≠ '.' ∧ x ≠ '/')) ≠ [] := by
        intro he
        exact hn c (by simp) ((stripDotSlash_eq_empty_iff c).mpr he)
      have hrender : renderPath "" (c :: rest) = joinSlash (c :: rest) := by
        show ("" : String) ++ joinSlash (c :: rest) = joinSlash (c :: rest)
        rfl
      rw [hrender]
      intro he
      have hfe := (stripDotSlash_eq_empty_iff _).mp he
      cases rest with
      | nil =>
          have : (joinSlash [c]).data = c.data := rfl
          rw [this] at hfe
          exact hc hfe
      | cons c2 rest2 =>
          have hdata : (joinSlash (c :: c2 :: rest2)).data =
              c.data ++ ('/' :: (joinSlash (c2 :: rest2)).data) := by
            show ((c ++ "/") ++ joinSlash (c2 :: rest2)).data = _
            rw [strDataAppend, strDataAppend]
            simp
          rw [hdata, List.filter_append] at hfe
          exact hc (List.append_eq_nil.mp hfe).1

/-- Every nonempty suffix of the processed (reversed) component list gets
its rendering marked present for the host by the marking loop, provided all
components survive the dot/slash strip (so the loop guard never stops
early). -/
theorem markAncestorsRev_covers (domain base : String) :
    ∀ (rcs : List String) (dirs : DirCache) (t : List String),
      (∀ c ∈ rcs, stripDotSlash c ≠ "") → t <:+ rcs → t ≠ [] →
      pyJoin base (renderPath "" t.reverse) ∈
        cacheLookup (markAncestorsRev domain base "" rcs dirs) domain := by
  intro rcs
  induction rcs with
  | nil =>
      intro dirs t hn hsuf hne
      rw [List.suffix_nil] at hsuf
      exact absurd hsuf hne
  | cons c rest ih =>
      intro dirs t hn hsuf hne
      have hguard : stripDotSlash (renderPath "" (rest.reverse ++ [c])) ≠ "" := by
        apply stripDotSlash_render_ne
        · simp
        · intro x hx
          apply hn x
          rcases List.mem_append.mp hx with h1 | h2
          · exact List.mem_cons_of_mem c (List.mem_reverse.mp h1)
          · simp at h2
            simp [h2]
      rcases List.suffix_cons_iff.mp hsuf with h1 | h2
      · subst h1
        simp only [markAncestorsRev, List.reverse_cons]
        rw [if_neg hguard]
        exact markAncestorsRev_mono domain base "" domain _ rest _ (cacheAdd_self dirs domain _)
      · have hn' : ∀ x ∈ rest, stripDotSlash x ≠ "" := fun x hx => hn x (List.mem_cons_of_mem c hx)
        simp only [markAncestorsRev, List.reverse_cons]
        rw [if_neg hguard]
        exact ih _ t hn' h2 hne

/-- Every entry of `parentRendersRev` is the rendering of some suffix of
the reversed component list. -/
theorem parentRendersRev_mem (root : String) :
    ∀ (rcs : List String) (a : String), a ∈ parentRendersRev root rcs →
      ∃ t, t <:+ rcs ∧ a = renderPath root t.reverse := by
  intro rcs
  induction rcs with
  | nil =>
      intro a ha
      simp [parentRendersRev] at ha
  | cons c rest ih =>
      intro a ha
      simp only [parentRendersRev, List.mem_cons] at ha
      rcases ha with h1 | h2
      · exact ⟨rest, List.suffix_cons c rest, h1⟩
      · rcases ih a h2 with ⟨t, hsuf, heq⟩
        exact ⟨t, hsuf.trans (List.suffix_cons c rest), heq⟩

/-- C6 (amended): after an `ensure` (`_create_parent_dir_if_necessary`)
that actually performs the remote creation (a cache miss) for a normal
relative directory `d`, every later `ensure` for `d` itself or for any of
its ancestors OTHER THAN the root marker `"."` issues no remote creation
call under the same host.  Unamended the claim fails for the root marker:
the marking loop's guard `str(relative).replace(".", "").replace("/", "")`
stops before caching `"."`, so an `ensure` of the watch-relative root
re-issues its creation call every time (see the counterexample). -/
theorem ensure_caches_ancestors (st : EngineState) (domain base d a : String)
    (hmiss : pyJoin base d ∉ cacheLookup st.dirs domain)
    (hrel : rootMark d = "")
    (hnormal : ∀ c ∈ normComponents d, stripDotSlash c ≠ "")
    (hne : normComponents d ≠ [])
    (ha : a = pathStr d ∨ (a ∈ pyParents d ∧ a ≠ ".")) :
    (createParentDirIfNecessary
        (createParentDirIfNecessary st domain base d).2 domain base a).1 = [] := by
  have hstep : (createParentDirIfNecessary st domain base d).2 =
      { st with dirs := markAncestorsRev domain base "" (normComponents d).reverse st.dirs } := by
    simp [createParentDirIfNecessary, hmiss, hrel]
  have hnormrev : ∀ c ∈ (normComponents d).reverse, stripDotSlash c ≠ "" := by
    intro c hc
    exact hnormal c (List.mem_reverse.mp hc)
  have hmem : pyJoin base a ∈
      cacheLookup (markAncestorsRev domain base "" (normComponents d).reverse st.dirs) domain := by
    rcases ha with h1 | ⟨h2, h3⟩
    · have h4 : a = renderPath "" ((normComponents d).reverse).reverse := by
        rw [List.reverse_reverse, h1, pathStr, hrel]
      rw [h4]
      apply markAncestorsRev_covers domain base _ st.dirs _ hnormrev List.suffix_rfl
      intro h0
      apply hne
      have h5 := congrArg List.reverse h0
      simpa using h5
    · have hp : a ∈ parentRendersRev "" (normComponents d).reverse := by
        rw [pyParents, hrel] at h2
        exact h2
      rcases parentRendersRev_mem "" _ a hp with ⟨t, hsuf, heq⟩
      have htne : t ≠ [] := by
        intro h0
        apply h3
        rw [heq, h0]
        rfl
      rw [heq]
      exact markAncestorsRev_covers domain base _ st.dirs t hnormrev hsuf htne
  rw [hstep]
  simp [createParentDirIfNecessary, hmem]

/-- Witness for C6: `ensure("h", "/r", "a/b")` on an empty cache, then
`ensure("h", "/r", "a")` (a proper ancestor) issues no operation. -/
theorem ensure_caches_ancestors_w :
    (pyJoin "/r" "a/b" ∉
        cacheLookup (⟨"/w/", ["h:/r"], ["py"], [], "", "main", false⟩ : EngineState).dirs "h") ∧
    rootMark "a/b" = "" ∧
    (normComponents "a/b" ≠ []) ∧
    ("a" ∈ pyParents "a/b" ∧ ("a" : String) ≠ ".") ∧
    (createParentDirIfNecessary
        (createParentDirIfNecessary ⟨"/w/", ["h:/r"], ["py"], [], "", "main", false⟩ "h" "/r" "a/b").2
        "h" "/r" "a").1 = [] :=
  ⟨by decide, by decide, by decide, by decide,
   ensure_caches_ancestors ⟨"/w/", ["h:/r"], ["py"], [], "", "main", false⟩ "h" "/r" "a/b" "a"
     (by decide) (by decide) (by decide)
     (by decide) (Or.inr ⟨by decide, by decide⟩)⟩

/-- Counterexample for C6 as stated: `"."` IS an ancestor of `"a/b"`
(pathlib's `parents` ends with it), yet after a successful
`ensure("h", "/r", "a/b")` the call `ensure("h", "/r", ".")` still issues a
remote creation call — the root marker is never cached. -/
theorem ensure_caches_ancestors_cex :
    ("." ∈ pyParents "a/b") ∧
    (createParentDirIfNecessary
        (createParentDirIfNecessary ⟨"/w/", ["h:/r"], ["py"], [], "", "main", false⟩ "h" "/r" "a/b").2
        "h" "/r" ".").1 ≠ [] := by
  decide
